import Mathlib

/-!
Verification of the atomate2 analysis layer: the strain-state enumeration
(`atomate2/common/analysis/elastic.py`) and the ferroelectric polarization
analysis job (`atomate2/vasp/jobs/ferroelectric.py`), shallowly embedded in
Lean 4.  Python dictionaries with possibly-missing keys are embedded as
records of `Option`-valued fields; a lookup of a missing key is a
`KeyError`, embedded as `Except.error`.
-/

/-- A Voigt strain state: 6-tuple of integers (xx, yy, zz, yz, xz, xy). -/
abbrev StrainState := Int × Int × Int × Int × Int × Int

/-- Embeds `get_default_strain_states` from
`atomate2/common/analysis/elastic.py`.  The Python function returns the
literal table for `order == 2` or `order == 3` and raises `ValueError`
otherwise; raising is embedded as `Except.error` carrying the message. -/
def get_default_strain_states (order : Int) : Except String (List StrainState) :=
  if order = 2 then
    .ok [
      (1, 0, 0, 0, 0, 0),
      (0, 1, 0, 0, 0, 0),
      (0, 0, 1, 0, 0, 0),
      (0, 0, 0, 2, 0, 0),
      (0, 0, 0, 0, 2, 0),
      (0, 0, 0, 0, 0, 2)]
  else if order = 3 then
    .ok [
      (1, 0, 0, 0, 0, 0),
      (0, 1, 0, 0, 0, 0),
      (0, 0, 1, 0, 0, 0),
      (0, 0, 0, 2, 0, 0),
      (0, 0, 0, 0, 2, 0),
      (0, 0, 0, 0, 0, 2),
      (1, 1, 0, 0, 0, 0),
      (1, 0, 1, 0, 0, 0),
      (1, 0, 0, 2, 0, 0),
      (1, 0, 0, 0, 2, 0),
      (0, 1, 1, 0, 0, 0),
      (0, 0, 0, 2, 2, 0),
      (0, 0, 0, 2, 0, 2),
      (0, 0, 0, 0, 2, 2)]
  else
    .error "only deformations for 2nd and 3rd order elastic tensors are supported."

/-- The entries of a strain state as a list, for stating alphabet bounds. -/
def strainEntries (s : StrainState) : List Int :=
  [s.1, s.2.1, s.2.2.1, s.2.2.2.1, s.2.2.2.2.1, s.2.2.2.2.2]

/-- The strain state that is zero except value `m` at Voigt position `i`. -/
def voigtSingle (i : Fin 6) (m : Int) : StrainState :=
  match i with
  | 0 => (m, 0, 0, 0, 0, 0)
  | 1 => (0, m, 0, 0, 0, 0)
  | 2 => (0, 0, m, 0, 0, 0)
  | 3 => (0, 0, 0, m, 0, 0)
  | 4 => (0, 0, 0, 0, m, 0)
  | 5 => (0, 0, 0, 0, 0, m)

/-! ## Ferroelectric polarization analysis (`atomate2/vasp/jobs/ferroelectric.py`)

Numbers are embedded as rationals.  Each lcalcpol job output is a Python
dict; its entries are embedded as `Option`-valued fields of a record, with
`none` meaning the key is absent (so a lookup raises `KeyError`, embedded
as `Except.error`).  The `task_label` value may itself be Python `None`,
hence its doubled `Option`. -/

/-- A 3-vector of rationals (dipole components along a, b, c). -/
abbrev Vec3 := ℚ × ℚ × ℚ

/-- A site of a structure: species symbol and position. -/
abbrev Site := String × Vec3

/-- A structure: its list of sites (all the claims need of pymatgen
`Structure`). -/
abbrev PmgStructure := List Site

/-- A zval table: species symbol → pseudopotential valence charge. -/
abbrev ZvalDict := List (String × ℚ)

/-- The dict built by `get_polarization_output` (ferroelectric.py lines
172-181), one per lcalcpol job, fields in the source's key order. -/
structure LcalcpolOutput where
  energy_per_atom : Option ℚ
  energy : Option ℚ
  task_label : Option (Option String)
  structure_ : Option PmgStructure
  zval_dict : Option ZvalDict
  p_elecs : Option Vec3
  job_dir : Option String
  uuid : Option String
  deriving DecidableEq

/-- The per-step values appended to the accumulator lists by one pass of
the extraction loop (ferroelectric.py lines 65-71). -/
structure StepData where
  energy_per_atom : ℚ
  energy : ℚ
  task_lbl : String
  structure_ : PmgStructure
  job_dir : String
  uuid : String
  deriving DecidableEq

/-- Python dict lookup `p[key]`: the value when the key is present,
`KeyError` otherwise. -/
def require {α : Type} (v : Option α) (msg : String) : Except String α :=
  match v with
  | none => Except.error msg
  | some a => Except.ok a

/-- Python `x or dflt` on an optional string: `dflt` when `x` is falsy
(`None` or the empty string), else `x` (ferroelectric.py line 68). -/
def pyOr (v : Option String) (dflt : String) : String :=
  match v with
  | none => dflt
  | some s => if s = "" then dflt else s

/-- One iteration of the extraction loop (ferroelectric.py lines 65-71) at
enumeration index `i`: reads the required keys in source order and fails
on the first missing one. -/
def extractStep (i : Nat) (p : LcalcpolOutput) : Except String StepData :=
  match p.energy_per_atom with
  | none => Except.error "KeyError: energy_per_atom"
  | some epa =>
  match p.energy with
  | none => Except.error "KeyError: energy"
  | some en =>
  match p.task_label with
  | none => Except.error "KeyError: task_label"
  | some lbl =>
  match p.structure_ with
  | none => Except.error "KeyError: structure"
  | some st =>
  match p.job_dir with
  | none => Except.error "KeyError: job_dir"
  | some jd =>
  match p.uuid with
  | none => Except.error "KeyError: uuid"
  | some uu => Except.ok ⟨epa, en, pyOr lbl (toString i), st, jd, uu⟩

/-- The whole extraction loop starting at enumeration index `i`. -/
def extractStepsFrom (i : Nat) : List LcalcpolOutput → Except String (List StepData)
  | [] => Except.ok []
  | t :: ts =>
    match extractStep i t with
    | Except.error e => Except.error e
    | Except.ok d =>
      match extractStepsFrom (i + 1) ts with
      | Except.error e => Except.error e
      | Except.ok ds => Except.ok (d :: ds)

/-- Line 74, `zval_dict = p["zval_dict"]`: `p` is the leaked loop
variable, i.e. the last element of `polarization_tasks`; on an empty list
the loop never ran and `p` is unbound (`NameError`). -/
def zval_from_last (tasks : List LcalcpolOutput) : Except String ZvalDict :=
  match tasks.getLast? with
  | none => Except.error "NameError: name p is not defined"
  | some t => require t.zval_dict "KeyError: zval_dict"

/-- Line 79, the comprehension `[p["p_elecs"] for p in polarization_tasks]`. -/
def extractPElecs : List LcalcpolOutput → Except String (List Vec3)
  | [] => Except.ok []
  | t :: ts =>
    match t.p_elecs with
    | none => Except.error "KeyError: p_elecs"
    | some v =>
      match extractPElecs ts with
      | Except.error e => Except.error e
      | Except.ok vs => Except.ok (v :: vs)

/-- The zval of a species symbol in a zval table (0 when absent; only the
summation shape matters to the claims). -/
def zvalOf (zd : ZvalDict) (sp : String) : ℚ :=
  match zd.find? (fun e => e.1 = sp) with
  | none => 0
  | some e => e.2

/-- Modelled from the spec: `get_total_ionic_dipole` is an external
pymatgen collaborator, not under src/.  Spec §4.2 step 2: "compute the
ionic contribution to the dipole as the sum over atoms of (zval of that
atom's species) × (fractional or Cartesian position per convention)". -/
def get_total_ionic_dipole (st : PmgStructure) (zd : ZvalDict) : Vec3 :=
  st.foldr
    (fun site acc =>
      (zvalOf zd site.1 * site.2.1 + acc.1,
       zvalOf zd site.1 * site.2.2.1 + acc.2.1,
       zvalOf zd site.1 * site.2.2.2 + acc.2.2))
    (0, 0, 0)

/-- The aggregate result record, holding the nine sequences passed at
ferroelectric.py lines 82-92. -/
structure PolarizationDocument where
  p_elecs : List Vec3
  p_ions : List Vec3
  structures : List PmgStructure
  energies : List ℚ
  energies_per_atom : List ℚ
  zval_dict : ZvalDict
  task_lbls : List String
  job_dirs : List String
  uuids : List String
  deriving DecidableEq

/-- Modelled from the spec: `PolarizationDocument.from_pol_output`
(atomate2/vasp/schemas/ferroelectric.py, not under src/).  Spec §4.2 step
7: "Assemble result: package all per-axis decompositions ..., energies,
structures, labels, job directories/identifiers, and the zval table into
the immutable PolarizationResult".  The branch-correction computation
(steps 3-6) is modelled separately by `same_branch_value`,
`same_branch_all` and `net_change` below. -/
def from_pol_output (pe pi : List Vec3) (sts : List PmgStructure)
    (ens epas : List ℚ) (zd : ZvalDict) (lbls jds uus : List String) :
    PolarizationDocument :=
  ⟨pe, pi, sts, ens, epas, zd, lbls, jds, uus⟩

/-- Lines 50-52: `[f"interpolation_{i}" for i in reversed(range(n))]`,
keys kept as their indices. -/
def ordered_keys (n : Nat) : List Nat := (List.range n).reverse

/-- Lines 54-56: the task chain `[np] + [interp[k] for k in ordered_keys]
+ [p]`.  The interpolation dict is embedded as a list whose index `i`
holds the value at key `interpolation_i` (exactly the keys
`add_interpolation_flow` produces, lines 144-149). -/
def polarization_tasks (np_out p_out : LcalcpolOutput)
    (interp : List LcalcpolOutput) : List LcalcpolOutput :=
  [np_out] ++ (ordered_keys interp.length).filterMap (fun i => interp.get? i) ++ [p_out]

/-- The body of `polarization_analysis` from its assembled task list on
(lines 58-92): the extraction loop, the leaked-variable zval lookup, the
`p_elecs` comprehension, the ionic dipoles, and the final assembly. -/
def analyze_chain (tasks : List LcalcpolOutput) :
    Except String PolarizationDocument :=
  match extractStepsFrom 0 tasks with
  | Except.error e => Except.error e
  | Except.ok steps =>
    match zval_from_last tasks with
    | Except.error e => Except.error e
    | Except.ok zd =>
      match extractPElecs tasks with
      | Except.error e => Except.error e
      | Except.ok pel =>
        Except.ok (from_pol_output pel
          ((steps.map (fun d => d.structure_)).map
            (fun st => get_total_ionic_dipole st zd))
          (steps.map (fun d => d.structure_)) (steps.map (fun d => d.energy))
          (steps.map (fun d => d.energy_per_atom)) zd
          (steps.map (fun d => d.task_lbl)) (steps.map (fun d => d.job_dir))
          (steps.map (fun d => d.uuid)))

/-- The job `polarization_analysis` (ferroelectric.py lines 26-92). -/
def polarization_analysis (np_out p_out : LcalcpolOutput)
    (interp : List LcalcpolOutput) : Except String PolarizationDocument :=
  analyze_chain (polarization_tasks np_out p_out interp)

/-- A copy of `t` with its `zval_dict` entry replaced, for stating that no zval but
the last task's can influence the analysis. -/
def withZval (t : LcalcpolOutput) (z : Option ZvalDict) : LcalcpolOutput :=
  ⟨t.energy_per_atom, t.energy, t.task_label, t.structure_, z, t.p_elecs,
   t.job_dir, t.uuid⟩

/-! ### Branch correction, modelled from the spec

The branch-correction algorithm lives in
`PolarizationDocument.from_pol_output` / pymatgen's `Polarization`,
neither of which is under src/. -/

/-- Modelled from the spec: §4.2 step 3 — "at each step choose, from the
family of branch-equivalent values (raw value + integer multiples of the
local polarization quantum per axis), the one closest to the previous
step's chosen value", per axis. -/
def same_branch_value (quantum prev raw : ℚ) : ℚ :=
  raw + quantum * ((round ((prev - raw) / quantum) : ℤ) : ℚ)

/-- Modelled from the spec: the greedy walk continuing a chain of raw
per-step values from the previously chosen value `prev`. -/
def same_branch_chain (quantum prev : ℚ) : List ℚ → List ℚ
  | [] => []
  | r :: rs =>
    let c := same_branch_value quantum prev r
    c :: same_branch_chain quantum c rs

/-- Modelled from the spec: §4.2 step 3 — "Starting from the nonpolar
endpoint (canonically zero polarization) walk the chain step by step";
the first raw value is kept as-is. -/
def same_branch_all (quantum : ℚ) : List ℚ → List ℚ
  | [] => []
  | r :: rs => r :: same_branch_chain quantum r rs

/-- Modelled from the spec: §4.2 step 4 — "Net polarization change =
same-branch value at the polar endpoint minus same-branch value at the
nonpolar endpoint, per axis". -/
def net_change (quantum : ℚ) (raws : List ℚ) : ℚ :=
  (same_branch_all quantum raws).getLastD 0 - (same_branch_all quantum raws).headD 0

/-- A sample polar structure for concrete inputs. -/
def sampleStructP : PmgStructure := [("Na", (0, 0, 0)), ("Cl", (1/2, 1/2, 1/2))]

/-- A sample nonpolar structure for concrete inputs. -/
def sampleStructNp : PmgStructure := [("Na", (0, 0, 0)), ("Cl", (1/2, 1/2, 0))]

/-- A lcalcpol output record with every key present, used as concrete
input in witnesses. -/
def sampleTask : LcalcpolOutput :=
  ⟨some 1, some 2, some (some "polar"), some sampleStructP,
   some [("Na", 1), ("Cl", 7)], some (3/10, 0, 0), some "/tmp/a", some "uuid-1"⟩

/-- A second sample record with a different zval table and label. -/
def sampleTask2 : LcalcpolOutput :=
  ⟨some 3, some 4, some (some "nonpolar"), some sampleStructNp,
   some [("Na", 9), ("Cl", 17)], some (1/10, 0, 0), some "/tmp/b", some "uuid-2"⟩

/-- A record whose `energy` key is absent. -/
def taskNoEnergy : LcalcpolOutput :=
  ⟨some 1, none, some (some "polar"), some sampleStructP,
   some [("Na", 1), ("Cl", 7)], some (3/10, 0, 0), some "/tmp/a", some "uuid-1"⟩

/-- A record whose task label is present but is the empty string. -/
def taskEmptyLabel : LcalcpolOutput :=
  ⟨some 1, some 2, some (some ""), some sampleStructP,
   some [("Na", 1), ("Cl", 7)], some (3/10, 0, 0), some "/tmp/a", some "uuid-1"⟩

/-- The document produced by the analysis of `sampleTask2` (nonpolar),
no interpolations, `sampleTask` (polar). -/
def sampleDoc : PolarizationDocument :=
  ⟨[(1/10, 0, 0), (3/10, 0, 0)],
   [(7/2, 7/2, 0), (7/2, 7/2, 7/2)],
   [sampleStructNp, sampleStructP],
   [4, 2], [3, 1], [("Na", 1), ("Cl", 7)],
   ["nonpolar", "polar"], ["/tmp/b", "/tmp/a"], ["uuid-2", "uuid-1"]⟩

/-- The document produced by the chain-level analysis of the single-step
chain `[sampleTask]`. -/
def sampleDocSingle : PolarizationDocument :=
  ⟨[(3/10, 0, 0)], [(7/2, 7/2, 7/2)], [sampleStructP], [2], [1],
   [("Na", 1), ("Cl", 7)], ["polar"], ["/tmp/a"], ["uuid-1"]⟩

/-- C1: for order 2 the function returns exactly the six single-component
Voigt states, magnitude flag 1 at the three normal positions (xx, yy, zz)
and flag 2 at the three shear positions (yz, xz, xy); for order 3 it
returns those six followed by 8 further two-component coupled states — the
fixed literal table of 14 tuples. -/
theorem C1_default_strain_states_table :
    get_default_strain_states 2 =
      .ok [voigtSingle 0 1, voigtSingle 1 1, voigtSingle 2 1,
           voigtSingle 3 2, voigtSingle 4 2, voigtSingle 5 2] ∧
    get_default_strain_states 3 =
      .ok ([voigtSingle 0 1, voigtSingle 1 1, voigtSingle 2 1,
            voigtSingle 3 2, voigtSingle 4 2, voigtSingle 5 2] ++
           [(1, 1, 0, 0, 0, 0),
            (1, 0, 1, 0, 0, 0),
            (1, 0, 0, 2, 0, 0),
            (1, 0, 0, 0, 2, 0),
            (0, 1, 1, 0, 0, 0),
            (0, 0, 0, 2, 2, 0),
            (0, 0, 0, 2, 0, 2),
            (0, 0, 0, 0, 2, 2)]) := by
  constructor <;> rfl

/-- C4: every order other than 2 and 3 yields the error, never a value. -/
theorem C4_invalid_order_errors (order : Int) (h2 : order ≠ 2) (h3 : order ≠ 3) :
    get_default_strain_states order =
      .error "only deformations for 2nd and 3rd order elastic tensors are supported." := by
  unfold get_default_strain_states
  rw [if_neg h2, if_neg h3]

/-- Witness for C4 at the concrete invalid order 5. -/
theorem C4_invalid_order_errors_witness :
    (5 : Int) ≠ 2 ∧ (5 : Int) ≠ 3 ∧
    get_default_strain_states 5 =
      .error "only deformations for 2nd and 3rd order elastic tensors are supported." :=
  ⟨by decide, by decide, C4_invalid_order_errors 5 (by decide) (by decide)⟩

/-- C6: both valid orders return a non-empty list of 6-tuples with entries
in {0, 1, 2}, and the order-2 list is a strict subset of the order-3 list,
the six singles recurring identically (as a prefix). -/
theorem C6_order2_strict_subset_order3 :
    ∃ l2 l3, get_default_strain_states 2 = .ok l2 ∧
      get_default_strain_states 3 = .ok l3 ∧
      l2 ≠ [] ∧ l3 ≠ [] ∧
      (∀ s ∈ l2, ∀ e ∈ strainEntries s, e = 0 ∨ e = 1 ∨ e = 2) ∧
      (∀ s ∈ l3, ∀ e ∈ strainEntries s, e = 0 ∨ e = 1 ∨ e = 2) ∧
      (∀ s ∈ l2, s ∈ l3) ∧ (∃ s ∈ l3, s ∉ l2) ∧
      l3.take l2.length = l2 := by
  refine ⟨_, _, rfl, rfl, by decide, by decide, by decide, by decide, by decide,
    ⟨(1, 1, 0, 0, 0, 0), by decide, by decide⟩, by decide⟩

theorem filterMap_getElem_range {α : Type} (l : List α) :
    (List.range l.length).filterMap (fun i => l[i]?) = l := by
  induction l with
  | nil => rfl
  | cons a l ih =>
    rw [List.length_cons, List.range_succ_eq_map, List.filterMap_cons]
    simp only [List.getElem?_cons_zero, List.filterMap_map]
    have hc : ((fun i => (a :: l)[i]?) ∘ Nat.succ) = fun i => l[i]? := by
      funext i
      simp
    rw [hc, ih]

theorem filterMap_reverse_eq {α β : Type} (f : α → Option β) (l : List α) :
    l.reverse.filterMap f = (l.filterMap f).reverse := by
  induction l with
  | nil => rfl
  | cons a l ih =>
    rw [List.reverse_cons, List.filterMap_append, ih]
    cases h : f a <;> simp [List.filterMap_cons, h]

theorem polarization_tasks_eq (np_out p_out : LcalcpolOutput)
    (interp : List LcalcpolOutput) :
    polarization_tasks np_out p_out interp = np_out :: interp.reverse ++ [p_out] := by
  unfold polarization_tasks ordered_keys
  rw [show (fun i => interp.get? i) = (fun i => interp[i]?) by funext i; simp,
    filterMap_reverse_eq, filterMap_getElem_range]
  simp

/-- C3: the analyzed chain is the nonpolar endpoint first, then the
interpolation outputs with keys `interpolation_(n-1)` down to
`interpolation_0`, then the polar endpoint last — nonpolar to polar. -/
theorem C3_chain_order (np_out p_out : LcalcpolOutput)
    (interp : List LcalcpolOutput) :
    polarization_tasks np_out p_out interp = np_out :: interp.reverse ++ [p_out] ∧
    (polarization_tasks np_out p_out interp).head? = some np_out ∧
    (polarization_tasks np_out p_out interp).getLast? = some p_out ∧
    (polarization_tasks np_out p_out interp).length = interp.length + 2 ∧
    ∀ i, i < interp.length →
      (polarization_tasks np_out p_out interp)[i + 1]? =
        interp[interp.length - 1 - i]? := by
  rw [polarization_tasks_eq]
  refine ⟨rfl, rfl, ?_, by simp, ?_⟩
  · rw [List.getLast?_concat]
  · intro i hi
    rw [List.getElem?_append_left (by simpa using hi), List.getElem?_cons_succ,
      List.getElem?_reverse (by simpa using hi)]

/-- Witness for C3 on a two-image interpolation chain, checking the slot
after the nonpolar endpoint holds `interpolation_1`. -/
theorem C3_chain_order_witness :
    (polarization_tasks sampleTask2 sampleTask [sampleTask, sampleTask2])[0 + 1]? =
      [sampleTask, sampleTask2][[sampleTask, sampleTask2].length - 1 - 0]? :=
  (C3_chain_order sampleTask2 sampleTask [sampleTask, sampleTask2]).2.2.2.2 0
    (by decide)

theorem sample_zval_Na : zvalOf [("Na", 1), ("Cl", 7)] "Na" = 1 := rfl

theorem sample_zval_Cl : zvalOf [("Na", 1), ("Cl", 7)] "Cl" = 7 := rfl

theorem sample_analysis_run :
    polarization_analysis sampleTask2 sampleTask [] = Except.ok sampleDoc := by
  norm_num [polarization_analysis, polarization_tasks, ordered_keys, analyze_chain,
    extractStepsFrom, extractStep, extractPElecs, zval_from_last, require, pyOr,
    sampleTask, sampleTask2, sampleDoc, sampleStructP, sampleStructNp,
    get_total_ionic_dipole, sample_zval_Na, sample_zval_Cl, from_pol_output,
    eq_false (show ¬ (("nonpolar" : String) = "") by decide),
    eq_false (show ¬ (("polar" : String) = "") by decide)]

theorem sample_chain_single_run :
    analyze_chain [sampleTask] = Except.ok sampleDocSingle := by
  norm_num [analyze_chain, extractStepsFrom, extractStep, extractPElecs,
    zval_from_last, require, pyOr, sampleTask, sampleDocSingle, sampleStructP,
    get_total_ionic_dipole, sample_zval_Na, sample_zval_Cl, from_pol_output,
    eq_false (show ¬ (("polar" : String) = "") by decide)]

theorem extractStep_ok_fields {i : Nat} {t : LcalcpolOutput} {d : StepData}
    (h : extractStep i t = Except.ok d) :
    t.energy_per_atom = some d.energy_per_atom ∧
    t.energy = some d.energy ∧
    t.structure_ = some d.structure_ ∧
    t.job_dir = some d.job_dir ∧
    t.uuid = some d.uuid ∧
    ∃ lblv, t.task_label = some lblv ∧ d.task_lbl = pyOr lblv (toString i) := by
  rcases t with ⟨epa, en, lbl, st, zd, pe, jd, uu⟩
  cases epa with
  | none => exact absurd h (by simp [extractStep])
  | some epa =>
  cases en with
  | none => exact absurd h (by simp [extractStep])
  | some en =>
  cases lbl with
  | none => exact absurd h (by simp [extractStep])
  | some lbl =>
  cases st with
  | none => exact absurd h (by simp [extractStep])
  | some st =>
  cases jd with
  | none => exact absurd h (by simp [extractStep])
  | some jd =>
  cases uu with
  | none => exact absurd h (by simp [extractStep])
  | some uu =>
    simp only [extractStep] at h
    injection h with h2
    subst h2
    exact ⟨rfl, rfl, rfl, rfl, rfl, lbl, rfl, rfl⟩

theorem extractStepsFrom_cons_ok {i : Nat} {t : LcalcpolOutput}
    {ts : List LcalcpolOutput} {ds : List StepData}
    (h : extractStepsFrom i (t :: ts) = Except.ok ds) :
    ∃ d ds₂, extractStep i t = Except.ok d ∧
      extractStepsFrom (i + 1) ts = Except.ok ds₂ ∧ ds = d :: ds₂ := by
  unfold extractStepsFrom at h
  cases h1 : extractStep i t <;> rw [h1] at h
  · cases h
  · cases h2 : extractStepsFrom (i + 1) ts <;> rw [h2] at h
    · cases h
    · cases h
      exact ⟨_, _, rfl, rfl, rfl⟩

theorem extractStepsFrom_ok_length {ts : List LcalcpolOutput} :
    ∀ {i : Nat} {ds : List StepData}, extractStepsFrom i ts = Except.ok ds →
      ds.length = ts.length := by
  induction ts with
  | nil =>
    intro i ds h
    cases h
    rfl
  | cons t ts ih =>
    intro i ds h
    obtain ⟨d, ds₂, h1, h2, rfl⟩ := extractStepsFrom_cons_ok h
    simp [ih h2]

theorem extractStepsFrom_ok_get {ts : List LcalcpolOutput} :
    ∀ {i : Nat} {ds : List StepData}, extractStepsFrom i ts = Except.ok ds →
      ∀ j t, ts[j]? = some t →
        ∃ d, extractStep (i + j) t = Except.ok d ∧ ds[j]? = some d := by
  induction ts with
  | nil =>
    intro i ds h j t hj
    simp at hj
  | cons a ts ih =>
    intro i ds h j t hj
    obtain ⟨d, ds₂, h1, h2, rfl⟩ := extractStepsFrom_cons_ok h
    cases j with
    | zero =>
      rw [List.getElem?_cons_zero] at hj
      cases hj
      exact ⟨d, by simpa using h1, by simp⟩
    | succ j =>
      rw [List.getElem?_cons_succ] at hj
      obtain ⟨d₂, hd₂, hget⟩ := ih h2 j t hj
      refine ⟨d₂, ?_, by simpa using hget⟩
      rw [show i + (j + 1) = i + 1 + j by omega]
      exact hd₂

theorem extractStepsFrom_ok_mem {ts : List LcalcpolOutput} :
    ∀ {i : Nat} {ds : List StepData}, extractStepsFrom i ts = Except.ok ds →
      ∀ t ∈ ts, t.energy_per_atom.isSome ∧ t.energy.isSome ∧
        t.task_label.isSome ∧ t.structure_.isSome ∧ t.job_dir.isSome ∧
        t.uuid.isSome := by
  induction ts with
  | nil =>
    intro i ds h t ht
    cases ht
  | cons a ts ih =>
    intro i ds h t ht
    obtain ⟨d, ds₂, h1, h2, rfl⟩ := extractStepsFrom_cons_ok h
    rcases List.mem_cons.mp ht with rfl | ht₂
    · obtain ⟨f1, f2, f3, f4, f5, lblv, f6, -⟩ := extractStep_ok_fields h1
      exact ⟨by simp [f1], by simp [f2], by simp [f6], by simp [f3],
        by simp [f4], by simp [f5]⟩
    · exact ih h2 t ht₂

theorem extractPElecs_cons_ok {t : LcalcpolOutput} {ts : List LcalcpolOutput}
    {vs : List Vec3} (h : extractPElecs (t :: ts) = Except.ok vs) :
    ∃ v vs₂, t.p_elecs = some v ∧ extractPElecs ts = Except.ok vs₂ ∧
      vs = v :: vs₂ := by
  unfold extractPElecs at h
  cases h1 : t.p_elecs <;> rw [h1] at h
  · cases h
  · cases h2 : extractPElecs ts <;> rw [h2] at h
    · cases h
    · cases h
      exact ⟨_, _, rfl, rfl, rfl⟩

theorem extractPElecs_ok_length {ts : List LcalcpolOutput} :
    ∀ {vs : List Vec3}, extractPElecs ts = Except.ok vs →
      vs.length = ts.length := by
  induction ts with
  | nil =>
    intro vs h
    cases h
    rfl
  | cons t ts ih =>
    intro vs h
    obtain ⟨v, vs₂, h1, h2, rfl⟩ := extractPElecs_cons_ok h
    simp [ih h2]

theorem extractPElecs_ok_get {ts : List LcalcpolOutput} :
    ∀ {vs : List Vec3}, extractPElecs ts = Except.ok vs →
      ∀ (j : Nat) (t : LcalcpolOutput), ts[j]? = some t →
        vs[j]? = t.p_elecs := by
  induction ts with
  | nil =>
    intro vs h j t hj
    simp at hj
  | cons a ts ih =>
    intro vs h j t hj
    obtain ⟨v, vs₂, h1, h2, rfl⟩ := extractPElecs_cons_ok h
    cases j with
    | zero =>
      rw [List.getElem?_cons_zero] at hj
      cases hj
      simp [h1]
    | succ j =>
      rw [List.getElem?_cons_succ] at hj
      simpa using ih h2 j t hj

theorem extractPElecs_ok_mem {ts : List LcalcpolOutput} :
    ∀ {vs : List Vec3}, extractPElecs ts = Except.ok vs →
      ∀ t ∈ ts, t.p_elecs.isSome := by
  induction ts with
  | nil =>
    intro vs h t ht
    cases ht
  | cons a ts ih =>
    intro vs h t ht
    obtain ⟨v, vs₂, h1, h2, rfl⟩ := extractPElecs_cons_ok h
    rcases List.mem_cons.mp ht with rfl | ht₂
    · simp [h1]
    · exact ih h2 t ht₂

theorem analyze_chain_ok {tasks : List LcalcpolOutput}
    {doc : PolarizationDocument} (h : analyze_chain tasks = Except.ok doc) :
    ∃ steps zd pel, extractStepsFrom 0 tasks = Except.ok steps ∧
      zval_from_last tasks = Except.ok zd ∧
      extractPElecs tasks = Except.ok pel ∧
      doc = from_pol_output pel
        ((steps.map (fun d => d.structure_)).map
          (fun st => get_total_ionic_dipole st zd))
        (steps.map (fun d => d.structure_)) (steps.map (fun d => d.energy))
        (steps.map (fun d => d.energy_per_atom)) zd
        (steps.map (fun d => d.task_lbl)) (steps.map (fun d => d.job_dir))
        (steps.map (fun d => d.uuid)) := by
  unfold analyze_chain at h
  cases h1 : extractStepsFrom 0 tasks <;> rw [h1] at h
  · cases h
  · cases h2 : zval_from_last tasks <;> rw [h2] at h
    · cases h
    · cases h3 : extractPElecs tasks <;> rw [h3] at h
      · cases h
      · cases h
        exact ⟨_, _, _, rfl, rfl, rfl, rfl⟩

theorem zval_from_last_concat (l : List LcalcpolOutput) (p_out : LcalcpolOutput) :
    zval_from_last (l ++ [p_out]) =
      require p_out.zval_dict "KeyError: zval_dict" := by
  unfold zval_from_last
  rw [List.getLast?_concat]

/-- C10: on success the assembled per-step sequences (electronic dipoles,
ionic dipoles, structures, energies, energies per atom, task labels, job
directories, uuids) all have length `interp.length + 2` and are
index-aligned with the nonpolar-to-polar task order. -/
theorem C10_sequences_aligned (np_out p_out : LcalcpolOutput)
    (interp : List LcalcpolOutput) (doc : PolarizationDocument)
    (h : polarization_analysis np_out p_out interp = Except.ok doc) :
    (doc.p_elecs.length = interp.length + 2 ∧
     doc.p_ions.length = interp.length + 2 ∧
     doc.structures.length = interp.length + 2 ∧
     doc.energies.length = interp.length + 2 ∧
     doc.energies_per_atom.length = interp.length + 2 ∧
     doc.task_lbls.length = interp.length + 2 ∧
     doc.job_dirs.length = interp.length + 2 ∧
     doc.uuids.length = interp.length + 2) ∧
    (∀ (j : Nat) (t : LcalcpolOutput),
      (polarization_tasks np_out p_out interp)[j]? = some t →
        doc.energies[j]? = t.energy ∧
        doc.energies_per_atom[j]? = t.energy_per_atom ∧
        doc.structures[j]? = t.structure_ ∧
        doc.job_dirs[j]? = t.job_dir ∧
        doc.uuids[j]? = t.uuid ∧
        doc.p_elecs[j]? = t.p_elecs ∧
        doc.p_ions[j]? =
          t.structure_.map (fun st => get_total_ionic_dipole st doc.zval_dict) ∧
        ∃ lblv, t.task_label = some lblv ∧
          doc.task_lbls[j]? = some (pyOr lblv (toString j))) := by
  obtain ⟨steps, zd, pel, h1, h2, h3, rfl⟩ := analyze_chain_ok h
  have hlen : (polarization_tasks np_out p_out interp).length = interp.length + 2 := by
    rw [polarization_tasks_eq]
    simp
  have hsl : steps.length = interp.length + 2 := by
    rw [extractStepsFrom_ok_length h1, hlen]
  have hpl : pel.length = interp.length + 2 := by
    rw [extractPElecs_ok_length h3, hlen]
  constructor
  · simp [from_pol_output, hsl, hpl]
  · intro j t hj
    obtain ⟨d, hd, hget⟩ := extractStepsFrom_ok_get h1 j t hj
    obtain ⟨f1, f2, f3, f4, f5, lblv, f6, f7⟩ := extractStep_ok_fields hd
    have hp := extractPElecs_ok_get h3 j t hj
    refine ⟨?_, ?_, ?_, ?_, ?_, ?_, ?_, lblv, f6, ?_⟩ <;>
      simp [from_pol_output, List.getElem?_map, hget, f1, f2, f3, f4, f5, hp, f7]

/-- Witness for C10 on a successful concrete analysis. -/
theorem C10_sequences_aligned_witness :
    sampleDoc.p_elecs.length = ([] : List LcalcpolOutput).length + 2 :=
  (C10_sequences_aligned sampleTask2 sampleTask [] sampleDoc
    sample_analysis_run).1.1

/-- C8: a step lacking a required field (energy, energy-per-atom,
structure, or electronic dipole) makes the analysis fail with an error —
no default value is substituted and no retry is performed. -/
theorem C8_missing_field_errors (np_out p_out : LcalcpolOutput)
    (interp : List LcalcpolOutput) (t : LcalcpolOutput)
    (hmem : t ∈ polarization_tasks np_out p_out interp)
    (hmiss : t.energy = none ∨ t.energy_per_atom = none ∨
      t.structure_ = none ∨ t.p_elecs = none) :
    ∃ e, polarization_analysis np_out p_out interp = Except.error e := by
  cases hres : polarization_analysis np_out p_out interp with
  | error e => exact ⟨e, rfl⟩
  | ok doc =>
    exfalso
    obtain ⟨steps, zd, pel, h1, h2, h3, -⟩ := analyze_chain_ok hres
    rcases hmiss with hm | hm | hm | hm
    · have hs := (extractStepsFrom_ok_mem h1 t hmem).2.1
      simp [hm] at hs
    · have hs := (extractStepsFrom_ok_mem h1 t hmem).1
      simp [hm] at hs
    · have hs := (extractStepsFrom_ok_mem h1 t hmem).2.2.2.1
      simp [hm] at hs
    · have hs := extractPElecs_ok_mem h3 t hmem
      simp [hm] at hs

/-- Witness for C8: the nonpolar record lacks its energy key. -/
theorem C8_missing_field_errors_witness :
    ∃ e, polarization_analysis taskNoEnergy sampleTask [] = Except.error e :=
  C8_missing_field_errors taskNoEnergy sampleTask [] taskNoEnergy
    (by rw [polarization_tasks_eq]; exact List.mem_cons_self _ _)
    (Or.inl rfl)

/-- C7 (amended): the function's mandatory nonpolar and polar arguments
make a chain of fewer than 2 steps impossible (the assembled chain always
has `interp.length + 2 ≥ 2` entries), and the analysis body performs no
chain-length check: on a single-step chain it succeeds with a document,
and on an empty chain it fails only through the unbound loop variable —
no EmptyChain error exists. -/
theorem C7_no_empty_chain_check :
    (∀ (np_out p_out : LcalcpolOutput) (interp : List LcalcpolOutput),
      2 ≤ (polarization_tasks np_out p_out interp).length) ∧
    analyze_chain [sampleTask] = Except.ok sampleDocSingle ∧
    analyze_chain [] = Except.error "NameError: name p is not defined" := by
  refine ⟨?_, sample_chain_single_run, rfl⟩
  intro np_out p_out interp
  rw [polarization_tasks_eq]
  simp

/-- C7 counterexample: a single-step chain is processed by the analysis
body without any error — in particular no EmptyChain error — and the
empty chain's failure is the unbound-loop-variable error, not an
EmptyChain error. -/
theorem C7_counterexample :
    (∃ doc, analyze_chain [sampleTask] = Except.ok doc) ∧
    analyze_chain [] = Except.error "NameError: name p is not defined" :=
  ⟨⟨sampleDocSingle, sample_chain_single_run⟩, rfl⟩

theorem extractStep_withZval (i : Nat) (t : LcalcpolOutput)
    (z : Option ZvalDict) : extractStep i (withZval t z) = extractStep i t := by
  rcases t with ⟨epa, en, lbl, st, zd, pe, jd, uu⟩
  rfl

theorem extractStepsFrom_map_withZval (σ : LcalcpolOutput → Option ZvalDict) :
    ∀ (l₁ l₂ : List LcalcpolOutput) (i : Nat),
      extractStepsFrom i (l₁.map (fun t => withZval t (σ t)) ++ l₂) =
        extractStepsFrom i (l₁ ++ l₂) := by
  intro l₁
  induction l₁ with
  | nil => intro l₂ i; rfl
  | cons a l₁ ih =>
    intro l₂ i
    simp only [List.map_cons, List.cons_append]
    unfold extractStepsFrom
    rw [extractStep_withZval, ih]

theorem extractPElecs_map_withZval (σ : LcalcpolOutput → Option ZvalDict) :
    ∀ (l₁ l₂ : List LcalcpolOutput),
      extractPElecs (l₁.map (fun t => withZval t (σ t)) ++ l₂) =
        extractPElecs (l₁ ++ l₂) := by
  intro l₁
  induction l₁ with
  | nil => intro l₂; rfl
  | cons a l₁ ih =>
    intro l₂
    simp only [List.map_cons, List.cons_append]
    unfold extractPElecs
    rw [ih]
    rcases a with ⟨epa, en, lbl, st, zd, pe, jd, uu⟩
    rfl

theorem analyze_chain_map_withZval (σ : LcalcpolOutput → Option ZvalDict)
    (l₁ : List LcalcpolOutput) (p_out : LcalcpolOutput) :
    analyze_chain (l₁.map (fun t => withZval t (σ t)) ++ [p_out]) =
      analyze_chain (l₁ ++ [p_out]) := by
  unfold analyze_chain
  rw [extractStepsFrom_map_withZval, extractPElecs_map_withZval,
    zval_from_last_concat, zval_from_last_concat]

/-- C5: the zval table used for all ionic-dipole computations is the one
exposed by the last task processed — the polar endpoint — and no other
step's zval table influences the result (replacing every other step's
table leaves the analysis unchanged); no consistency check exists. -/
theorem C5_zval_from_last_only (np_out p_out : LcalcpolOutput)
    (interp : List LcalcpolOutput) :
    (∀ doc, polarization_analysis np_out p_out interp = Except.ok doc →
      p_out.zval_dict = some doc.zval_dict ∧
      doc.p_ions = doc.structures.map
        (fun st => get_total_ionic_dipole st doc.zval_dict)) ∧
    (∀ σ : LcalcpolOutput → Option ZvalDict,
      polarization_analysis (withZval np_out (σ np_out)) p_out
        (interp.map (fun t => withZval t (σ t))) =
      polarization_analysis np_out p_out interp) := by
  constructor
  · intro doc h
    obtain ⟨steps, zd, pel, h1, h2, h3, rfl⟩ := analyze_chain_ok h
    have hz : zval_from_last (polarization_tasks np_out p_out interp) =
        require p_out.zval_dict "KeyError: zval_dict" := by
      rw [polarization_tasks_eq]
      exact zval_from_last_concat _ _
    rw [hz] at h2
    constructor
    · cases hzd : p_out.zval_dict with
      | none =>
        rw [hzd] at h2
        cases h2
      | some z =>
        rw [hzd] at h2
        cases h2
        simp [from_pol_output]
    · simp [from_pol_output]
  · intro σ
    unfold polarization_analysis
    rw [polarization_tasks_eq, polarization_tasks_eq]
    have h1 : withZval np_out (σ np_out) ::
        (interp.map (fun t => withZval t (σ t))).reverse ++ [p_out] =
        ((np_out :: interp.reverse).map (fun t => withZval t (σ t))) ++ [p_out] := by
      simp
    rw [h1]
    exact analyze_chain_map_withZval σ (np_out :: interp.reverse) p_out

/-- Witness for C5 on the successful concrete analysis. -/
theorem C5_zval_from_last_only_witness :
    sampleTask.zval_dict = some sampleDoc.zval_dict ∧
    sampleDoc.p_ions = sampleDoc.structures.map
      (fun st => get_total_ionic_dipole st sampleDoc.zval_dict) :=
  (C5_zval_from_last_only sampleTask2 sampleTask []).1 sampleDoc
    sample_analysis_run

/-- C9 (amended): when a step's extraction succeeds, the recorded label
equals the step's label whenever that label is a non-empty string; the
positional index (as a string) is recorded when the label value is None or
the empty string; and a record without the task_label key cannot succeed
(KeyError) — it does not default. -/
theorem C9_task_label_rule (i : Nat) (t : LcalcpolOutput) (d : StepData)
    (h : extractStep i t = Except.ok d) :
    (∀ s, t.task_label = some (some s) → s ≠ "" → d.task_lbl = s) ∧
    ((t.task_label = some none ∨ t.task_label = some (some "")) →
      d.task_lbl = toString i) ∧
    t.task_label ≠ none := by
  obtain ⟨-, -, -, -, -, lblv, hlbl, hdl⟩ := extractStep_ok_fields h
  refine ⟨?_, ?_, by simp [hlbl]⟩
  · intro s hs hne
    rw [hlbl] at hs
    cases hs
    rw [hdl]
    simp [pyOr, hne]
  · intro hc
    rcases hc with hc | hc <;> rw [hlbl] at hc <;> cases hc <;> rw [hdl] <;>
      simp [pyOr]

/-- Witness for C9 at index 7 with the non-empty label "polar". -/
theorem C9_task_label_rule_witness :
    (⟨1, 2, "polar", sampleStructP, "/tmp/a", "uuid-1"⟩ : StepData).task_lbl
      = "polar" :=
  (C9_task_label_rule 7 sampleTask
    ⟨1, 2, "polar", sampleStructP, "/tmp/a", "uuid-1"⟩ rfl).1 "polar" rfl
    (by decide)

/-- C9 counterexample: a present-but-empty task label is recorded as the
positional index "0", not as the step's (empty) label. -/
theorem C9_counterexample :
    taskEmptyLabel.task_label = some (some "") ∧
    extractStep 0 taskEmptyLabel =
      Except.ok ⟨1, 2, "0", sampleStructP, "/tmp/a", "uuid-1"⟩ ∧
    ("0" : String) ≠ "" :=
  ⟨rfl, rfl, by decide⟩

theorem same_branch_value_nearest (q prev raw : ℚ) (hq : 0 < q) (m : ℤ) :
    |same_branch_value q prev raw - prev| ≤ |raw + q * (m : ℚ) - prev| := by
  have hq0 : q ≠ 0 := ne_of_gt hq
  rw [same_branch_value]
  set x : ℚ := (prev - raw) / q with hx
  have hqx : q * x = prev - raw := by
    rw [hx]
    field_simp
  have h1 : raw + q * ((round x : ℤ) : ℚ) - prev =
      q * (((round x : ℤ) : ℚ) - x) := by
    rw [mul_sub, hqx]
    ring
  have h2 : raw + q * (m : ℚ) - prev = q * ((m : ℚ) - x) := by
    rw [mul_sub, hqx]
    ring
  rw [h1, h2, abs_mul, abs_mul, abs_sub_comm (((round x : ℤ) : ℚ)) x,
    abs_sub_comm ((m : ℚ)) x]
  exact mul_le_mul_of_nonneg_left (round_le x m) (abs_nonneg q)

/-- C2 (amended): at each step the branch correction chooses, among the
branch-equivalent values raw + k·quantum, the one closest to the previous
step's chosen value; in the concrete scenario (previous same-branch value
0.1, polar-endpoint raw value 0.9, quantum 1.0) it chooses -0.1, and the
net polarization change of the chain 0, 0.1, 0.9 is -0.1 (not -0.3). -/
theorem C2_branch_correction :
    (∀ q prev raw : ℚ, 0 < q →
      (∃ k : ℤ, same_branch_value q prev raw = raw + q * (k : ℚ)) ∧
      ∀ m : ℤ, |same_branch_value q prev raw - prev| ≤
        |raw + q * (m : ℚ) - prev|) ∧
    same_branch_value 1 (1/10) (9/10) = -(1/10) ∧
    same_branch_all 1 [0, 1/10, 9/10] = [0, 1/10, -(1/10)] ∧
    net_change 1 [0, 1/10, 9/10] = -(1/10) := by
  refine ⟨fun q prev raw hq =>
    ⟨⟨round ((prev - raw) / q), rfl⟩,
     fun m => same_branch_value_nearest q prev raw hq m⟩, ?_, ?_, ?_⟩
  · norm_num [same_branch_value, round_eq]
  · norm_num [same_branch_all, same_branch_chain, same_branch_value, round_eq]
  · norm_num [net_change, same_branch_all, same_branch_chain,
      same_branch_value, round_eq]

/-- Witness for C2 at quantum 1, previous value 0.1, raw value 0.9. -/
theorem C2_branch_correction_witness :
    ∃ k : ℤ, same_branch_value 1 (1/10) (9/10) = 9/10 + 1 * (k : ℚ) :=
  ((C2_branch_correction).1 1 (1/10) (9/10) (by norm_num)).1

/-- C2 counterexample: at the claim's concrete input the same-branch
values are 0, 0.1, -0.1, and the net change is -0.1 — not the claimed
-0.3. -/
theorem C2_counterexample :
    same_branch_all 1 [0, 1/10, 9/10] = [0, 1/10, -(1/10)] ∧
    net_change 1 [0, 1/10, 9/10] ≠ -(3/10) := by
  constructor
  · norm_num [same_branch_all, same_branch_chain, same_branch_value, round_eq]
  · norm_num [net_change, same_branch_all, same_branch_chain,
      same_branch_value, round_eq]
